import Mathlib

/-!
Formal model of the torrent streaming module of NuvioMobile.

The module under study is `TorrentStreamingModule` (Kotlin, embedded in
`docs/IOS_TORRENT_ENGINE_PATH.md`) together with the network
classification helper `getNetworkClassForMbps` from the TypeScript
service layer.  Machine integers (Kotlin `Long`, `Int`) are modelled as
`Int` or `ℕ` (sizes, offsets and piece indices are non-negative);
JavaScript / Kotlin floating point throughput estimates are modelled as
`ℚ` (all constants involved are exactly representable and far from the
band boundaries, so the rational model agrees with binary64 on every
input considered here).  The external torrent engine is modelled at its
boundary: piece availability is an oracle `ℕ → Bool`, handle validity a
`Bool`, and engine exceptions are not modelled (the code swallows them).

Definitions whose name starts with `spec` are NOT translated from the
source: they transcribe the words of a specification claim, and exist
only to be compared against the corresponding source-derived definition.
-/

namespace NuvioTorrent

/-! ### HTTP range bridge (`parseRangeHeader`, `TorrentHttpServer.serveTorrentRequest`) -/

/-- HTTP method, as distinguished by `serveTorrentRequest`
(`session.method != Method.GET && session.method != Method.HEAD`). -/
inductive HttpMethod
  | GET
  | HEAD
  | other
deriving DecidableEq, Repr

/-- Syntactic shape of the `Range` request header after the string
plumbing of `parseRangeHeader`: the header is absent / blank / lacks the
`bytes=` marker (`absent`), has no `-` separator (`noDash`), or splits
into `startText`/`endText` at the first `-` with each side trimmed and
parsed by `toLongOrNull` (`none` models a parse failure).  A blank
`startText` is the suffix form `-N`, a blank `endText` the open form
`start-`. -/
inductive RangeForm
  | absent
  | noDash
  | suffix (suffixLength : Option Int)
  | openEnd (startText : Option Int)
  | closed (startText endText : Option Int)
deriving DecidableEq, Repr

/-- Value of a `Content-Range` response header:
`bytes s-e/total` or `bytes */total`. -/
inductive ContentRangeValue
  | satisfiable (rangeStart rangeEnd total : Int)
  | unsatisfiable (total : Int)
deriving DecidableEq, Repr

/-- Body of a response: a fixed text body, or a `TorrentInputStream`
over `byteLength` bytes of the selected file starting at absolute file
offset `startOffset` (NanoHTTPD sends exactly `byteLength` bytes for
such a fixed-length response). -/
inductive ResponseBody
  | textBody (message : String)
  | torrentStream (startOffset byteLength : Int)
deriving DecidableEq, Repr

/-- An HTTP response as assembled by `serveTorrentRequest`; only the
headers the Kotlin code explicitly sets are modelled. -/
structure HttpResponse where
  status : ℕ
  acceptRanges : Bool
  contentLength : Option Int
  keepAlive : Bool
  contentRange : Option ContentRangeValue
  body : ResponseBody
deriving DecidableEq, Repr

/-- Final validation and clamp of `parseRangeHeader`:
`if (start < 0 || start >= fileSize) return null; if (end < start) return null;
return start to min(end, fileSize - 1)`. -/
def rangeCheckClamp (rangeStart rangeEnd fileSize : Int) : Option (Int × Int) :=
  if rangeStart < 0 ∨ fileSize ≤ rangeStart then none
  else if rangeEnd < rangeStart then none
  else some (rangeStart, min rangeEnd (fileSize - 1))

/-- Dispatch of `parseRangeHeader` over the syntactic form of the header
(the `when` block of the Kotlin source). -/
def parseRangeFormBody (range : RangeForm) (fileSize : Int) : Option (Int × Int) :=
  match range with
  | RangeForm.absent => none
  | RangeForm.noDash => none
  | RangeForm.suffix none => none
  | RangeForm.suffix (some suffixLength) =>
      if suffixLength ≤ 0 then none
      else rangeCheckClamp (max 0 (fileSize - suffixLength)) (fileSize - 1) fileSize
  | RangeForm.openEnd none => none
  | RangeForm.openEnd (some s) => rangeCheckClamp s (fileSize - 1) fileSize
  | RangeForm.closed none _ => none
  | RangeForm.closed _ none => none
  | RangeForm.closed (some s) (some e) => rangeCheckClamp s e fileSize

/-- `parseRangeHeader(rangeHeader, fileSize)`: `null` when the header is
missing, malformed or `fileSize <= 0`, otherwise the validated and
clamped `(start, end)` pair. -/
def parseRangeHeader (range : RangeForm) (fileSize : Int) : Option (Int × Int) :=
  if fileSize ≤ 0 then none else parseRangeFormBody range fileSize

/-- The 405 response of `serveTorrentRequest`. -/
def methodNotAllowedResponse : HttpResponse :=
  { status := 405, acceptRanges := false, contentLength := none, keepAlive := false,
    contentRange := none, body := ResponseBody.textBody "Method not allowed" }

/-- The 404 response of `serveTorrentRequest` (unknown `streamId`). -/
def notFoundResponse : HttpResponse :=
  { status := 404, acceptRanges := false, contentLength := none, keepAlive := false,
    contentRange := none, body := ResponseBody.textBody "Stream not found" }

/-- `TorrentHttpServer.serveTorrentRequest`: `streamFileSize` is
`some fileSize` when `activeStreams[streamId]` exists (the registered
stream's file size) and `none` for an unknown `streamId`. -/
def serveTorrentRequest (method : HttpMethod) (streamFileSize : Option Int)
    (range : RangeForm) : HttpResponse :=
  if method ≠ HttpMethod.GET ∧ method ≠ HttpMethod.HEAD then
    methodNotAllowedResponse
  else
    match streamFileSize with
    | none => notFoundResponse
    | some fileSize =>
      let parsedRange := parseRangeHeader range fileSize
      let rangeStart := (parsedRange.map Prod.fst).getD 0
      let rangeEnd := (parsedRange.map Prod.snd).getD (fileSize - 1)
      if rangeStart < 0 ∨ rangeEnd < rangeStart ∨ fileSize ≤ rangeStart then
        { status := 416, acceptRanges := true, contentLength := none, keepAlive := false,
          contentRange := some (ContentRangeValue.unsatisfiable fileSize),
          body := ResponseBody.textBody "Requested range not satisfiable" }
      else
        let byteLength := rangeEnd - rangeStart + 1
        { status := if parsedRange.isSome then 206 else 200,
          acceptRanges := true,
          contentLength := some byteLength,
          keepAlive := true,
          contentRange :=
            if parsedRange.isSome then
              some (ContentRangeValue.satisfiable rangeStart rangeEnd fileSize)
            else none,
          body :=
            if method = HttpMethod.HEAD then ResponseBody.textBody ""
            else ResponseBody.torrentStream rangeStart byteLength }

/-! ### Network classification and tuning
(`getNetworkClassForMbps` from the TypeScript service, lines 215-223 of
the service file, and `deriveStreamingTuning` from the Kotlin module) -/

/-- The six network classes of the TypeScript service. -/
inductive NetworkClass
  | verySlow
  | slow
  | medium
  | fast
  | veryFast
  | ultra
deriving DecidableEq, Repr

/-- TypeScript `clamp(value, minValue, maxValue) =
Math.max(minValue, Math.min(maxValue, value))`. -/
def clampQ (value minValue maxValue : ℚ) : ℚ :=
  max minValue (min maxValue value)

/-- `getNetworkClassForMbps` (TypeScript): `networkMbps || 20` replaces
a JavaScript-falsy estimate (`0`, `-0`, `NaN`; modelled by `0` in `ℚ`)
with `DEFAULT_NETWORK_MBPS = 20`, the result is clamped into
`[MIN_NETWORK_MBPS = 0.1, 1000]`, then bucketed. -/
def getNetworkClassForMbps (networkMbps : ℚ) : NetworkClass :=
  let mbps := clampQ (if networkMbps = 0 then 20 else networkMbps) (1/10) 1000
  if mbps ≤ 3/2 then NetworkClass.verySlow
  else if mbps ≤ 5 then NetworkClass.slow
  else if mbps ≤ 20 then NetworkClass.medium
  else if mbps ≤ 80 then NetworkClass.fast
  else if mbps ≤ 250 then NetworkClass.veryFast
  else NetworkClass.ultra

/-- The six-band table of the specification ("the six bands
`≤1.5, ≤5, ≤20, ≤80, ≤250, >250` Mbps map to very-slow, slow, medium,
fast, very-fast, ultra").  Stated from the spec's words, to be compared
with the source-derived classifier. -/
def specBandTable (mbps : ℚ) : NetworkClass :=
  if mbps ≤ 3/2 then NetworkClass.verySlow
  else if mbps ≤ 5 then NetworkClass.slow
  else if mbps ≤ 20 then NetworkClass.medium
  else if mbps ≤ 80 then NetworkClass.fast
  else if mbps ≤ 250 then NetworkClass.veryFast
  else NetworkClass.ultra

/-- The network-class mapping exactly as the claim words it: "an unknown
or non-positive estimate defaults to 20 Mbps, inputs below the minimum
are clamped before classification", then the six bands.  Stated from the
claim's words, to be compared with `getNetworkClassForMbps`. -/
def specNetworkClassForMbps (networkMbps : ℚ) : NetworkClass :=
  let defaulted := if networkMbps ≤ 0 then 20 else networkMbps
  specBandTable (clampQ defaulted (1/10) 1000)

/-- The per-class tuning profile of the Kotlin module. -/
structure StreamingTuning where
  streamingWindowPieces : ℕ
  prefetchWindowPieces : ℕ
  prefetchAdvanceStep : ℕ
  pieceDeadlineStepMs : ℕ
  boostNearPieces : ℕ
  boostMidPieces : ℕ
deriving DecidableEq, Repr

/-- `deriveStreamingTuning(networkMbps)` (Kotlin): a `null`, non-finite
or non-positive estimate is replaced by `20.0` (a non-finite double is
not representable in `ℚ`; it behaves as the default, which the `none`
case covers), then one fixed profile per band is selected. -/
def deriveStreamingTuning (networkMbps : Option ℚ) : StreamingTuning :=
  let mbps : ℚ :=
    match networkMbps with
    | some q => if 0 < q then q else 20
    | none => 20
  if mbps ≤ 3/2 then ⟨64, 128, 12, 160, 14, 28⟩
  else if mbps ≤ 5 then ⟨88, 192, 18, 145, 18, 36⟩
  else if mbps ≤ 20 then ⟨112, 256, 24, 120, 24, 48⟩
  else if mbps ≤ 80 then ⟨144, 320, 32, 100, 28, 56⟩
  else if mbps ≤ 250 then ⟨176, 384, 40, 85, 32, 64⟩
  else ⟨224, 448, 48, 70, 36, 72⟩

/-! ### Piece geometry (`prepareStreamInternal`, lines 426-431) -/

/-- The piece geometry computed by `prepareStreamInternal`:
`pieceLength = max(1, torrentInfo.pieceLength())`,
`totalPieces = max(1, torrentInfo.numPieces())`,
`firstPiece = (fileOffset / pieceLength).coerceIn(0, totalPieces - 1)`,
`lastPiece = ((fileOffset + max(1, fileSize) - 1) / pieceLength)
  .coerceIn(firstPiece, totalPieces - 1)`.
All quantities are non-negative, so Kotlin `Long` division is ordinary
natural division and `coerceIn` is a `max`/`min` pair. -/
def streamGeometry (fileOffset fileSize pieceLenRaw numPiecesRaw : ℕ) : ℕ × ℕ :=
  let pieceLength := max 1 pieceLenRaw
  let totalPieces := max 1 numPiecesRaw
  let firstPiece := min (fileOffset / pieceLength) (totalPieces - 1)
  let lastPiece :=
    max firstPiece (min ((fileOffset + max 1 fileSize - 1) / pieceLength) (totalPieces - 1))
  (firstPiece, lastPiece)

/-- `lastPiece` exactly as the claim words it:
`floor((fileOffset + fileSize − 1) / pieceLength)` clamped to
`[0, totalPieces−1]`.  Stated from the claim's words, to be compared
with `streamGeometry`. -/
def specLastPiece (fileOffset fileSize pieceLength totalPieces : ℕ) : ℕ :=
  min ((fileOffset + fileSize - 1) / pieceLength) (totalPieces - 1)

/-! ### Piece-window boosting (`boostPieceWindow`, lines 731-762) -/

/-- Kotlin `x.coerceIn(lo, hi)` on naturals (defined for `lo ≤ hi`). -/
def clampNat (x lo hi : ℕ) : ℕ :=
  max lo (min x hi)

/-- Result of one `boostPieceWindow` call: the per-piece engine commands
it issued, as `(piece, priority, deadlineMs)` triples in loop order
(priorities `7 = Priority.SEVEN`, `6 = Priority.SIX`,
`4 = Priority.FOUR`), and the value of the `lastBoostedPiece` cursor
after the call. -/
structure BoostResult where
  boosts : List (ℕ × ℕ × ℕ)
  newLastBoostedPiece : Int
deriving DecidableEq, Repr

/-- The three-tier priority of `boostPieceWindow` for a piece at
`pieceOffset` from the window start. -/
def boostPriority (t : StreamingTuning) (pieceOffset : ℕ) : ℕ :=
  if pieceOffset < t.boostNearPieces then 7
  else if pieceOffset < t.boostMidPieces then 6
  else 4

/-- `boostPieceWindow(stream, fromPiece, windowPieces)` over a stream
with piece range `[fileStartPiece, fileEndPiece]`, tuning `t`, handle
validity `handleValid` and current cursor `lastBoostedPiece` (initially
`-1`).  Engine calls are modelled as always succeeding (the Kotlin
`catch` breaking the loop covers engine exceptions only). -/
def boostPieceWindow (fileStartPiece fileEndPiece : ℕ) (t : StreamingTuning)
    (handleValid : Bool) (lastBoostedPiece : Int) (fromPiece : ℕ)
    (windowPieces : Option ℕ) : BoostResult :=
  if handleValid = false then ⟨[], lastBoostedPiece⟩
  else
    let startPiece := clampNat fromPiece fileStartPiece fileEndPiece
    if 0 ≤ lastBoostedPiece ∧ (startPiece : Int) ≤ lastBoostedPiece + 8 then
      ⟨[], lastBoostedPiece⟩
    else
      let effectiveWindowPieces := max 1 (windowPieces.getD t.streamingWindowPieces)
      let endPiece := min fileEndPiece (startPiece + effectiveWindowPieces)
      ⟨(List.range (endPiece + 1 - startPiece)).map
          (fun off => (startPiece + off, boostPriority t off, off * t.pieceDeadlineStepMs)),
        (startPiece : Int)⟩

/-- `boostPieceWindow` exactly as the claim words it: a no-op unless the
clamped `fromPiece` has advanced at least the minimum hysteresis step
(8) past `lastBoostedPiece`; otherwise each piece from `fromPiece` to
`fromPiece + windowSize` (clamped to the file range) gets top priority
for the nearest `boostNearPieces` pieces, second tier for the next
`boostMidPieces` pieces, a baseline priority for the remainder, and
deadline `(piece − fromPiece) × pieceDeadlineStepMs`.  Stated from the
claim's words, to be compared with `boostPieceWindow`. -/
def specBoostPieceWindow (fileStartPiece fileEndPiece : ℕ) (t : StreamingTuning)
    (handleValid : Bool) (lastBoostedPiece : Int) (fromPiece : ℕ)
    (windowPieces : Option ℕ) : BoostResult :=
  if handleValid = false then ⟨[], lastBoostedPiece⟩
  else
    let startPiece := clampNat fromPiece fileStartPiece fileEndPiece
    if 0 ≤ lastBoostedPiece ∧ (startPiece : Int) < lastBoostedPiece + 8 then
      ⟨[], lastBoostedPiece⟩
    else
      let windowSize := windowPieces.getD t.streamingWindowPieces
      let endPiece := min fileEndPiece (startPiece + windowSize)
      ⟨(List.range (endPiece + 1 - startPiece)).map
          (fun off =>
            (startPiece + off,
             if off < t.boostNearPieces then 7
             else if off < t.boostNearPieces + t.boostMidPieces then 6
             else 4,
             off * t.pieceDeadlineStepMs)),
        (startPiece : Int)⟩

/-! ### Prefetch loop (`startPrefetchLoop`, `findNextMissingPiece`,
lines 764-821) -/

/-- `findNextMissingPiece(stream, fromPiece)`: scan forward from the
clamped cursor over `[pivot, fileEndPiece]`, then wrap to
`[fileStartPiece, pivot)`; `none` models the `-1` no-missing-piece
marker.  `havePiece` is the engine's piece-availability oracle. -/
def findNextMissingPiece (handleValid : Bool) (havePiece : ℕ → Bool)
    (fileStartPiece fileEndPiece fromPiece : ℕ) : Option ℕ :=
  if handleValid = false then none
  else
    let pivot := clampNat fromPiece fileStartPiece fileEndPiece
    (((List.range' pivot (fileEndPiece + 1 - pivot)).find? (fun p => !havePiece p)).or
      ((List.range' fileStartPiece (pivot - fileStartPiece)).find? (fun p => !havePiece p)))

/-- Position of piece `p` in the circular scan order of
`findNextMissingPiece` started at the clamped cursor. -/
def wrapRank (fileStartPiece fileEndPiece fromPiece p : ℕ) : ℕ :=
  let pivot := clampNat fromPiece fileStartPiece fileEndPiece
  if pivot ≤ p then p - pivot else (fileEndPiece + 1 - pivot) + (p - fileStartPiece)

/-- The `nextPrefetchPiece` update of one iteration of the prefetch loop
body: `none` when the loop breaks (stream deregistered, handle invalid,
or no piece missing), otherwise the new cursor value
`min(fileEndPiece, nextMissing + prefetchAdvanceStep)`. -/
def prefetchStepCursor (streamStillActive handleValid : Bool) (havePiece : ℕ → Bool)
    (fileStartPiece fileEndPiece prefetchAdvanceStep : ℕ)
    (nextPrefetchPiece : ℕ) : Option ℕ :=
  if streamStillActive = false then none
  else if handleValid = false then none
  else
    let fromPiece := clampNat nextPrefetchPiece fileStartPiece fileEndPiece
    match findNextMissingPiece handleValid havePiece fileStartPiece fileEndPiece fromPiece with
    | none => none
    | some nextMissing => some (min fileEndPiece (nextMissing + prefetchAdvanceStep))

/-! ### Stream registry (`activeStreams`, `prepareStreamInternal`,
`stopStream`, `stopAllStreamsLocked`, `stopStreamLocked`) -/

/-- The registry-relevant part of an `ActiveTorrentStream`. -/
structure StreamRec where
  streamId : String
  saveDir : String
deriving DecidableEq, Repr

/-- The registry state: `activeStreams` as an association list with
unique keys, plus the save directories deleted so far
(`stopStreamLocked(stream, cleanupFiles = true)` runs
`deleteRecursively(stream.saveDir)`). -/
structure RegState where
  streams : List StreamRec
  cleanedDirs : List String
deriving DecidableEq, Repr

/-- The primitive registry mutations the module performs under its
coarse lock: `stopAllStreamsLocked(cleanupFiles = true)` (clear the map
and clean up every removed stream), `activeStreams[streamId] = stream`,
and `activeStreams.remove(streamId)` followed by
`stopStreamLocked` when a stream was present. -/
inductive PrimOp
  | clearAll
  | register (s : StreamRec)
  | removeId (id : String)
deriving DecidableEq, Repr

/-- Effect of one primitive registry mutation. -/
def applyPrim (st : RegState) : PrimOp → RegState
  | PrimOp.clearAll =>
      ⟨[], st.streams.map (fun s => s.saveDir) ++ st.cleanedDirs⟩
  | PrimOp.register s => ⟨st.streams ++ [s], st.cleanedDirs⟩
  | PrimOp.removeId id =>
      ⟨st.streams.filter (fun s => s.streamId ≠ id),
       (st.streams.filter (fun s => s.streamId = id)).map (fun s => s.saveDir)
         ++ st.cleanedDirs⟩

/-- Run a list of primitive mutations. -/
def runPrims (st : RegState) (ops : List PrimOp) : RegState :=
  ops.foldl applyPrim st

/-- The lifecycle calls that mutate the registry, with the registry
mutations each performs in order: `prepareStream` clears all prior
streams first and registers the new stream only after resolution
succeeds (`prepareFailed` is a prepare aborted by a timeout or
no-playable-file error after the initial clear); `stopStream`,
`stopAllStreams` and module teardown only remove. -/
inductive ModuleCall
  | prepareOk (s : StreamRec)
  | prepareFailed
  | stopOne (id : String)
  | stopAll
  | teardown
deriving DecidableEq, Repr

/-- Registry mutations of one lifecycle call, in program order. -/
def callPrims : ModuleCall → List PrimOp
  | ModuleCall.prepareOk s => [PrimOp.clearAll, PrimOp.register s]
  | ModuleCall.prepareFailed => [PrimOp.clearAll]
  | ModuleCall.stopOne id => [PrimOp.removeId id]
  | ModuleCall.stopAll => [PrimOp.clearAll]
  | ModuleCall.teardown => [PrimOp.clearAll]

/-- `stopStream(streamId)`: remove the stream from the registry, clean
it up when present, and resolve the promise with `true` (nothing in the
body throws: engine-removal errors are swallowed and recursive deletion
does not raise). -/
def stopStream (st : RegState) (id : String) : Bool × RegState :=
  (true, applyPrim st (PrimOp.removeId id))

/-- The single-active-stream registry invariant. -/
def atMostOne (st : RegState) : Prop :=
  st.streams.length ≤ 1

/-- `InvAlong st ops`: every state reached while executing `ops` from
`st` (one primitive mutation at a time) satisfies `atMostOne`. -/
def InvAlong (st : RegState) : List PrimOp → Prop
  | [] => True
  | op :: rest => atMostOne (applyPrim st op) ∧ InvAlong (applyPrim st op) rest

/-- The registry state of a freshly created module: empty. -/
def initRegState : RegState :=
  ⟨[], []⟩

/-! ## Helper lemmas -/

/-- A successful forward scan over `range' a n` returns the first index
whose piece is missing. -/
lemma find_missing_range'_some (havePiece : ℕ → Bool) :
    ∀ (n a q : ℕ), (List.range' a n).find? (fun p => !havePiece p) = some q →
      a ≤ q ∧ q < a + n ∧ havePiece q = false ∧
        ∀ p, a ≤ p → p < q → havePiece p = true := by
  intro n
  induction n with
  | zero => intro a q h; simp [List.range'] at h
  | succ n ih =>
    intro a q h
    rw [List.range'_succ] at h
    by_cases hpa : havePiece a
    · rw [List.find?_cons_of_neg _ (by simp [hpa])] at h
      obtain ⟨h1, h2, h3, h4⟩ := ih (a + 1) q h
      refine ⟨by omega, by omega, h3, ?_⟩
      intro p hp1 hp2
      rcases Nat.eq_or_lt_of_le hp1 with he | hl
      · rw [← he]; exact hpa
      · exact h4 p (by omega) hp2
    · rw [List.find?_cons_of_pos _ (by simp [hpa])] at h
      obtain rfl : a = q := by injection h
      refine ⟨le_rfl, by omega, by simpa using hpa, ?_⟩
      intro p hp1 hp2
      omega

/-- A scan over `range' a n` finds nothing exactly when every piece in
the range is present. -/
lemma find_missing_range'_none (havePiece : ℕ → Bool) (a n : ℕ) :
    (List.range' a n).find? (fun p => !havePiece p) = none ↔
      ∀ p, a ≤ p → p < a + n → havePiece p = true := by
  rw [List.find?_eq_none]
  constructor
  · intro h p hp1 hp2
    have := h p (List.mem_range'_1.mpr ⟨hp1, hp2⟩)
    simpa using this
  · intro h x hx
    have hm := List.mem_range'_1.mp hx
    simp [h x hm.1 hm.2]

/-- `coerceIn` lands inside its bounds. -/
lemma clampNat_mem (x lo hi : ℕ) (h : lo ≤ hi) :
    lo ≤ clampNat x lo hi ∧ clampNat x lo hi ≤ hi := by
  unfold clampNat
  omega

lemma runPrims_nil (st : RegState) : runPrims st [] = st := rfl

lemma runPrims_cons (st : RegState) (op : PrimOp) (ops : List PrimOp) :
    runPrims st (op :: ops) = runPrims (applyPrim st op) ops := rfl

/-- The step invariant distributes over concatenation of mutation
lists. -/
lemma invAlong_append (l1 l2 : List PrimOp) :
    ∀ st, InvAlong st (l1 ++ l2) ↔ InvAlong st l1 ∧ InvAlong (runPrims st l1) l2 := by
  induction l1 with
  | nil =>
    intro st
    simp [InvAlong, runPrims_nil]
  | cons op rest ih =>
    intro st
    rw [List.cons_append]
    show atMostOne (applyPrim st op) ∧ InvAlong (applyPrim st op) (rest ++ l2) ↔ _
    rw [ih, runPrims_cons]
    show _ ↔ (atMostOne (applyPrim st op) ∧ InvAlong (applyPrim st op) rest) ∧ _
    tauto

/-- Every lifecycle call keeps the single-active-stream bound at each of
its registry mutations, and restores it at the end. -/
lemma call_keeps_invariant (c : ModuleCall) (st : RegState) (h : atMostOne st) :
    InvAlong st (callPrims c) ∧ atMostOne (runPrims st (callPrims c)) := by
  cases c with
  | prepareOk s =>
    refine ⟨⟨?_, ?_, trivial⟩, ?_⟩
    · show ([] : List StreamRec).length ≤ 1; simp
    · show (([] : List StreamRec) ++ [s]).length ≤ 1
      simp
    · show (([] : List StreamRec) ++ [s]).length ≤ 1
      simp
  | prepareFailed =>
    exact ⟨⟨by show ([] : List StreamRec).length ≤ 1; simp, trivial⟩,
      by show ([] : List StreamRec).length ≤ 1; simp⟩
  | stopOne id =>
    have hlen : (st.streams.filter (fun s => s.streamId ≠ id)).length ≤ 1 :=
      le_trans (List.length_filter_le _ _) h
    exact ⟨⟨hlen, trivial⟩, hlen⟩
  | stopAll =>
    exact ⟨⟨by show ([] : List StreamRec).length ≤ 1; simp, trivial⟩,
      by show ([] : List StreamRec).length ≤ 1; simp⟩
  | teardown =>
    exact ⟨⟨by show ([] : List StreamRec).length ≤ 1; simp, trivial⟩,
      by show ([] : List StreamRec).length ≤ 1; simp⟩

/-- Along any sequence of lifecycle calls from a state with at most one
registered stream, every intermediate registry state keeps at most one
registered stream. -/
lemma invAlong_calls (calls : List ModuleCall) :
    ∀ st, atMostOne st → InvAlong st (calls.flatMap callPrims) := by
  induction calls with
  | nil => intro st _; exact trivial
  | cons c rest ih =>
    intro st h
    rw [List.flatMap_cons, invAlong_append]
    obtain ⟨h1, h2⟩ := call_keeps_invariant c st h
    exact ⟨h1, ih _ h2⟩

/-! ## Claim theorems -/

/-- Claim C1: for every byte range with `0 ≤ start ≤ end < fileSize`, a
GET request with header `Range: bytes={start}-{end}` on a registered
stream returns status 206 with `Content-Range: bytes
{start}-{end}/{fileSize}`, `Content-Length = end - start + 1`, and a
body of exactly `end - start + 1` bytes starting at `start`. -/
theorem c1_valid_range_returns_206 (fileSize startReq endReq : Int) (h0 : 0 ≤ startReq)
    (h1 : startReq ≤ endReq) (h2 : endReq < fileSize) :
    serveTorrentRequest HttpMethod.GET (some fileSize)
      (RangeForm.closed (some startReq) (some endReq)) =
      { status := 206, acceptRanges := true, contentLength := some (endReq - startReq + 1),
        keepAlive := true,
        contentRange := some (ContentRangeValue.satisfiable startReq endReq fileSize),
        body := ResponseBody.torrentStream startReq (endReq - startReq + 1) } := by
  have hparse : parseRangeHeader (RangeForm.closed (some startReq) (some endReq)) fileSize
      = some (startReq, endReq) := by
    rw [parseRangeHeader, if_neg (by omega)]
    show rangeCheckClamp startReq endReq fileSize = _
    rw [rangeCheckClamp, if_neg (by omega), if_neg (by omega), min_eq_left (by omega)]
  simp only [serveTorrentRequest, hparse, Option.map_some', Option.getD_some, Option.isSome_some,
    ne_eq, not_true_eq_false, false_and, if_false, ite_true, if_true]
  rw [if_neg (by omega)]
  simp

/-- Claim C1 witness: `Range: bytes=2-5` on a 10-byte stream yields 206,
`Content-Range: bytes 2-5/10` and a 4-byte body. -/
theorem c1_valid_range_returns_206_witness :
    serveTorrentRequest HttpMethod.GET (some 10)
      (RangeForm.closed (some 2) (some 5)) =
      { status := 206, acceptRanges := true, contentLength := some 4, keepAlive := true,
        contentRange := some (ContentRangeValue.satisfiable 2 5 10),
        body := ResponseBody.torrentStream 2 4 } := by
  rw [c1_valid_range_returns_206 10 2 5 (by decide) (by decide) (by decide)]
  decide

/-- Claim C2 counterexample: on a registered 10-byte stream, the request
`Range: bytes=20-25` (start past the file size) is answered with status
200 and the full body, not with the 416 the claim requires
(`parseRangeHeader` returns `null` for an unsatisfiable range, and the
server treats a `null` parse exactly like a missing `Range` header). -/
theorem c2_invalid_range_counterexample :
    (serveTorrentRequest HttpMethod.GET (some 10)
        (RangeForm.closed (some 20) (some 25))).status = 200 ∧
    (serveTorrentRequest HttpMethod.GET (some 10)
        (RangeForm.closed (some 20) (some 25))).status ≠ 416 ∧
    (serveTorrentRequest HttpMethod.GET (some 10)
        (RangeForm.closed (some 20) (some 25))).contentRange = none := by
  decide

/-- Claim C2 amended: for every registered stream with positive
`fileSize`, a `Range: bytes={start}-{end}` request whose start is at or
past `fileSize`, or whose end is smaller than its start, is treated as
if no `Range` header had been sent: the server responds 200 with the
full body and no `Content-Range` header.  (416 with
`Content-Range: bytes */{fileSize}` is produced only in the degenerate
case `fileSize ≤ 0`.) -/
theorem c2_invalid_range_ignored (fileSize startReq endReq : Int) (hf : 0 < fileSize)
    (hbad : fileSize ≤ startReq ∨ endReq < startReq) :
    serveTorrentRequest HttpMethod.GET (some fileSize)
        (RangeForm.closed (some startReq) (some endReq)) =
      serveTorrentRequest HttpMethod.GET (some fileSize) RangeForm.absent ∧
    (serveTorrentRequest HttpMethod.GET (some fileSize)
        (RangeForm.closed (some startReq) (some endReq))).status = 200 := by
  have hparse : parseRangeHeader (RangeForm.closed (some startReq) (some endReq)) fileSize
      = none := by
    rw [parseRangeHeader]
    split
    · rfl
    show rangeCheckClamp startReq endReq fileSize = _
    rw [rangeCheckClamp]
    rcases hbad with hb | hb
    · rw [if_pos (Or.inr hb)]
    · by_cases h : startReq < 0 ∨ fileSize ≤ startReq
      · rw [if_pos h]
      · rw [if_neg h, if_pos hb]
  have hparse2 : parseRangeHeader RangeForm.absent fileSize = none := by
    rw [parseRangeHeader]
    split <;> rfl
  constructor
  · simp only [serveTorrentRequest, hparse, hparse2]
  · simp only [serveTorrentRequest, hparse, Option.map_none', Option.getD_none,
      Option.isSome_none, ne_eq, not_true_eq_false, false_and, if_false]
    rw [if_neg (by omega)]
    simp

/-- Claim C2 amended witness: `Range: bytes=20-25` on a 10-byte stream
is served exactly like a request without a `Range` header. -/
theorem c2_invalid_range_ignored_witness :
    serveTorrentRequest HttpMethod.GET (some 10)
        (RangeForm.closed (some 20) (some 25)) =
      serveTorrentRequest HttpMethod.GET (some 10) RangeForm.absent :=
  (c2_invalid_range_ignored 10 20 25 (by decide) (Or.inl (by decide))).1

/-- Claim C3: `prepareStream` clears the whole registry (stopping and
cleaning up any prior active stream: its save directory is scheduled
for deletion) before the new stream is registered — immediately after
the clear the registry is empty — and along any sequence of lifecycle
calls starting from a fresh module at most one stream is ever
registered, at every intermediate registry state. -/
theorem c3_single_active_stream (calls : List ModuleCall) (newStream : StreamRec)
    (st : RegState) :
    InvAlong initRegState (calls.flatMap callPrims) ∧
    (applyPrim st PrimOp.clearAll).streams = [] ∧
    runPrims st (callPrims (ModuleCall.prepareOk newStream)) =
      ⟨[newStream], st.streams.map (fun s => s.saveDir) ++ st.cleanedDirs⟩ := by
  refine ⟨invAlong_calls calls initRegState ?_, rfl, rfl⟩
  show ([] : List StreamRec).length ≤ 1
  simp

/-- Claim C4 counterexample: `getNetworkClassForMbps (-1)` classifies as
`very-slow` (a negative estimate is truthy in JavaScript, so it is NOT
replaced by the default 20; it is clamped up to the 0.1 minimum),
whereas the claim's "non-positive estimate defaults to 20 Mbps" demands
`medium`. -/
theorem c4_negative_estimate_counterexample :
    getNetworkClassForMbps (-1) = NetworkClass.verySlow ∧
    specNetworkClassForMbps (-1) = NetworkClass.medium ∧
    getNetworkClassForMbps (-1) ≠ specNetworkClassForMbps (-1) := by
  have h1 : getNetworkClassForMbps (-1) = NetworkClass.verySlow := by
    norm_num [getNetworkClassForMbps, specBandTable, clampQ]
  have h2 : specNetworkClassForMbps (-1) = NetworkClass.medium := by
    norm_num [specNetworkClassForMbps, specBandTable, clampQ]
  refine ⟨h1, h2, ?_⟩
  rw [h1, h2]
  decide

/-- Claim C4 amended: the network-class mapping is a deterministic total
step function; an unknown or zero estimate defaults to 20 Mbps (hence
`medium`); every other estimate — including negative ones — is clamped
into `[0.1, 1000]` and then classified by the six bands
`≤1.5, ≤5, ≤20, ≤80, ≤250, >250` as very-slow, slow, medium, fast,
very-fast, ultra; in particular `1.0 → very-slow`, `5.0 → slow`,
`20.0 → medium`, `1000 → ultra`.  In the Kotlin `deriveStreamingTuning`
(which has no minimum clamp) a non-positive estimate does default
to 20. -/
theorem c4_network_class_mapping (q : ℚ) :
    (getNetworkClassForMbps 0 = NetworkClass.medium ∧
     getNetworkClassForMbps 1 = NetworkClass.verySlow ∧
     getNetworkClassForMbps 5 = NetworkClass.slow ∧
     getNetworkClassForMbps 20 = NetworkClass.medium ∧
     getNetworkClassForMbps 1000 = NetworkClass.ultra) ∧
    (q ≠ 0 → getNetworkClassForMbps q = specBandTable (clampQ q (1/10) 1000)) ∧
    (q ≤ 0 → deriveStreamingTuning (some q) = deriveStreamingTuning none) := by
  refine ⟨⟨?_, ?_, ?_, ?_, ?_⟩, ?_, ?_⟩
  · norm_num [getNetworkClassForMbps, specBandTable, clampQ]
  · norm_num [getNetworkClassForMbps, specBandTable, clampQ]
  · norm_num [getNetworkClassForMbps, specBandTable, clampQ]
  · norm_num [getNetworkClassForMbps, specBandTable, clampQ]
  · norm_num [getNetworkClassForMbps, specBandTable, clampQ]
  · intro h
    simp only [getNetworkClassForMbps, specBandTable, if_neg h]
  · intro h
    simp only [deriveStreamingTuning, if_neg (not_lt.mpr h)]

/-- Claim C4 amended witness: a negative estimate (−3) is classified
through the clamp/band pipeline, and gets the default tuning profile in
`deriveStreamingTuning`. -/
theorem c4_network_class_mapping_witness :
    getNetworkClassForMbps (-3) = specBandTable (clampQ (-3) (1/10) 1000) ∧
    deriveStreamingTuning (some (-3)) = deriveStreamingTuning none :=
  ⟨(c4_network_class_mapping (-3)).2.1 (by norm_num),
   (c4_network_class_mapping (-3)).2.2 (by norm_num)⟩

/-- Claim C5 counterexample: with `fileOffset = 4`, `fileSize = 0`,
`pieceLength = 4`, `totalPieces = 2`, the code computes
`lastPiece = floor((4 + max(1,0) - 1) / 4) = 1`, while the claim's
formula `floor((fileOffset + fileSize - 1) / pieceLength)` clamped to
`[0, totalPieces-1]` gives `0`. -/
theorem c5_zero_file_size_counterexample :
    (streamGeometry 4 0 4 2).2 = 1 ∧ specLastPiece 4 0 4 2 = 0 ∧
    (streamGeometry 4 0 4 2).2 ≠ specLastPiece 4 0 4 2 := by
  decide

/-- Claim C5 amended: for every prepared stream with `fileSize ≥ 1`
(the code substitutes `max(1, fileSize)` and clamps `lastPiece` to
`[firstPiece, totalPieces−1]`, which for `fileSize ≥ 1` coincides with
the claim), the geometry is
`firstPiece = floor(fileOffset / pieceLength)` and
`lastPiece = floor((fileOffset + fileSize − 1) / pieceLength)`, both
clamped to `[0, totalPieces−1]`, where `pieceLength` and `totalPieces`
are the stream's (already `max(1,·)`-adjusted) fields. -/
theorem c5_piece_geometry (fileOffset fileSize pieceLenRaw numPiecesRaw : ℕ)
    (h : 1 ≤ fileSize) :
    streamGeometry fileOffset fileSize pieceLenRaw numPiecesRaw =
      (min (fileOffset / max 1 pieceLenRaw) (max 1 numPiecesRaw - 1),
       min ((fileOffset + fileSize - 1) / max 1 pieceLenRaw) (max 1 numPiecesRaw - 1)) := by
  have hmax : max 1 fileSize = fileSize := Nat.max_eq_right h
  have hle : min (fileOffset / max 1 pieceLenRaw) (max 1 numPiecesRaw - 1) ≤
      min ((fileOffset + fileSize - 1) / max 1 pieceLenRaw) (max 1 numPiecesRaw - 1) :=
    min_le_min (Nat.div_le_div_right (by omega)) le_rfl
  simp only [streamGeometry, hmax]
  rw [Nat.max_eq_right hle]

/-- Claim C5 amended witness: offset 10, size 7, piece length 4, 100
pieces gives `firstPiece = 2`, `lastPiece = 4`. -/
theorem c5_piece_geometry_witness : streamGeometry 10 7 4 100 = (2, 4) := by
  rw [c5_piece_geometry 10 7 4 100 (by decide)]
  decide

/-- Claim C6 counterexample: with the medium tuning
(`boostNearPieces = 24`, `boostMidPieces = 48`,
`pieceDeadlineStepMs = 120`), a boost at piece 100 with window 112 over
file range `[0, 300]` gives the piece at offset 50 the baseline
priority 4 (the code's second tier covers offsets in
`[boostNearPieces, boostMidPieces)` only, i.e. 24 pieces), while the
claim's "second-tier priority to the next `boostMidPieces` pieces"
(offsets 24 to 71) demands priority 6 for it. -/
theorem c6_second_tier_counterexample :
    (boostPieceWindow 0 300 ⟨112, 256, 24, 120, 24, 48⟩ true 0 100 (some 112)).boosts[50]? =
      some (150, 4, 6000) ∧
    (specBoostPieceWindow 0 300 ⟨112, 256, 24, 120, 24, 48⟩ true 0 100 (some 112)).boosts[50]? =
      some (150, 6, 6000) := by
  decide

/-- Claim C6 amended: with a valid handle, `boostPieceWindow(fromPiece,
windowSize)` is a no-op (no engine command, cursor unchanged) unless the
clamped `fromPiece` has advanced strictly more than the hysteresis step
(8) past a non-negative `lastBoostedPiece`; otherwise it walks the
pieces from the clamped `fromPiece` through `fromPiece +
max(1, windowSize)` clamped to the file's end piece, assigning top
priority (7) to offsets below `boostNearPieces`, second-tier priority
(6) to the remaining offsets below `boostMidPieces` (i.e. the next
`boostMidPieces − boostNearPieces` pieces), baseline wanted priority (4)
to the remainder, and a deadline of
`(piece − fromPiece) × pieceDeadlineStepMs`; the cursor becomes the
clamped `fromPiece`. -/
theorem c6_boost_piece_window (fileStartPiece fileEndPiece : ℕ) (t : StreamingTuning)
    (lastBoostedPiece : Int) (fromPiece : ℕ) (windowPieces : Option ℕ) :
    (0 ≤ lastBoostedPiece →
      ((clampNat fromPiece fileStartPiece fileEndPiece : ℕ) : Int) ≤ lastBoostedPiece + 8 →
      boostPieceWindow fileStartPiece fileEndPiece t true lastBoostedPiece fromPiece windowPieces
        = ⟨[], lastBoostedPiece⟩) ∧
    (lastBoostedPiece < 0 ∨
        lastBoostedPiece + 8 < ((clampNat fromPiece fileStartPiece fileEndPiece : ℕ) : Int) →
      (boostPieceWindow fileStartPiece fileEndPiece t true lastBoostedPiece fromPiece
            windowPieces).newLastBoostedPiece
          = ((clampNat fromPiece fileStartPiece fileEndPiece : ℕ) : Int) ∧
      (boostPieceWindow fileStartPiece fileEndPiece t true lastBoostedPiece fromPiece
            windowPieces).boosts.length
          = min fileEndPiece (clampNat fromPiece fileStartPiece fileEndPiece
              + max 1 (windowPieces.getD t.streamingWindowPieces)) + 1
            - clampNat fromPiece fileStartPiece fileEndPiece ∧
      ∀ i, i < (boostPieceWindow fileStartPiece fileEndPiece t true lastBoostedPiece fromPiece
            windowPieces).boosts.length →
        (boostPieceWindow fileStartPiece fileEndPiece t true lastBoostedPiece fromPiece
            windowPieces).boosts[i]? =
          some (clampNat fromPiece fileStartPiece fileEndPiece + i,
            (if i < t.boostNearPieces then 7 else if i < t.boostMidPieces then 6 else 4),
            i * t.pieceDeadlineStepMs)) := by
  constructor
  · intro h1 h2
    rw [boostPieceWindow, if_neg (by simp), if_pos ⟨h1, h2⟩]
  · intro h
    have hcond : ¬(0 ≤ lastBoostedPiece ∧
        ((clampNat fromPiece fileStartPiece fileEndPiece : ℕ) : Int) ≤ lastBoostedPiece + 8) := by
      rcases h with h | h <;> omega
    rw [boostPieceWindow, if_neg (by simp), if_neg hcond]
    refine ⟨rfl, by simp, ?_⟩
    intro i hi
    simp only [List.length_map, List.length_range] at hi
    simp only [List.getElem?_map, List.getElem?_range hi, Option.map_some']
    rfl

/-- Claim C6 amended witness: a boost whose clamped start (6) has not
advanced past `lastBoostedPiece + 8 = 13` is a no-op. -/
theorem c6_boost_piece_window_witness :
    boostPieceWindow 0 10 ⟨4, 8, 2, 10, 2, 4⟩ true 5 6 none = ⟨[], 5⟩ :=
  (c6_boost_piece_window 0 10 ⟨4, 8, 2, 10, 2, 4⟩ 5 6 none).1 (by decide) (by decide)

/-- Claim C7 counterexample: one prefetch iteration can assign
`nextPrefetchPiece` a smaller value than its current one.  With file
range `[0, 100]`, `prefetchAdvanceStep = 24`, pieces 80..100 present
and everything before 80 missing, a cursor of 80 scans forward (all
present), wraps, finds piece 0 missing, and sets the cursor to
`min(100, 0 + 24) = 24 < 80`. -/
theorem c7_prefetch_cursor_decrease_counterexample :
    prefetchStepCursor true true (fun p => decide (80 ≤ p)) 0 100 24 80 = some 24 ∧
    24 < 80 := by
  decide

/-- Claim C7 amended: the `lastBoostedPiece` cursor is never assigned a
value smaller than its current one (every effective boost strictly
increases it past the hysteresis threshold), but `nextPrefetchPiece` is
assigned `min(fileEndPiece, nextMissing + prefetchAdvanceStep)`, which
is smaller than the current cursor when the missing-piece scan wraps
behind it; only the `lastBoostedPiece` half of the claim holds. -/
theorem c7_last_boosted_monotone (fileStartPiece fileEndPiece : ℕ) (t : StreamingTuning)
    (handleValid : Bool) (lastBoostedPiece : Int) (fromPiece : ℕ)
    (windowPieces : Option ℕ) :
    lastBoostedPiece ≤ (boostPieceWindow fileStartPiece fileEndPiece t handleValid
      lastBoostedPiece fromPiece windowPieces).newLastBoostedPiece := by
  by_cases hv : handleValid = false
  · rw [boostPieceWindow, if_pos hv]
  · rw [boostPieceWindow, if_neg hv]
    by_cases hc : 0 ≤ lastBoostedPiece ∧
        ((clampNat fromPiece fileStartPiece fileEndPiece : ℕ) : Int) ≤ lastBoostedPiece + 8
    · rw [if_pos hc]
    · rw [if_neg hc]
      show lastBoostedPiece ≤ ((clampNat fromPiece fileStartPiece fileEndPiece : ℕ) : Int)
      have hnn := Int.ofNat_nonneg (clampNat fromPiece fileStartPiece fileEndPiece)
      omega

/-- Claim C8: with a valid handle and `fileStartPiece ≤ fileEndPiece`,
`findNextMissingPiece` returns the no-missing-piece marker exactly when
every piece of `[fileStartPiece, fileEndPiece]` is present, and any
piece it returns is a missing piece of the file range that is first in
the circular scan order `[cursor, fileEndPiece]` then
`[fileStartPiece, cursor)`: every piece strictly earlier in that order
is present. -/
theorem c8_find_next_missing_piece (havePiece : ℕ → Bool)
    (fileStartPiece fileEndPiece fromPiece : ℕ)
    (hse : fileStartPiece ≤ fileEndPiece) :
    (findNextMissingPiece true havePiece fileStartPiece fileEndPiece fromPiece = none ↔
      ∀ p, fileStartPiece ≤ p → p ≤ fileEndPiece → havePiece p = true) ∧
    (∀ q, findNextMissingPiece true havePiece fileStartPiece fileEndPiece fromPiece = some q →
      fileStartPiece ≤ q ∧ q ≤ fileEndPiece ∧ havePiece q = false ∧
        ∀ p, fileStartPiece ≤ p → p ≤ fileEndPiece →
          wrapRank fileStartPiece fileEndPiece fromPiece p <
            wrapRank fileStartPiece fileEndPiece fromPiece q → havePiece p = true) := by
  obtain ⟨hp1, hp2⟩ := clampNat_mem fromPiece fileStartPiece fileEndPiece hse
  have hrank : ∀ p, wrapRank fileStartPiece fileEndPiece fromPiece p =
      if clampNat fromPiece fileStartPiece fileEndPiece ≤ p then
        p - clampNat fromPiece fileStartPiece fileEndPiece
      else (fileEndPiece + 1 - clampNat fromPiece fileStartPiece fileEndPiece)
        + (p - fileStartPiece) := by
    intro p; rfl
  have hval : findNextMissingPiece true havePiece fileStartPiece fileEndPiece fromPiece =
      (((List.range' (clampNat fromPiece fileStartPiece fileEndPiece)
          (fileEndPiece + 1 - clampNat fromPiece fileStartPiece fileEndPiece)).find?
            (fun p => !havePiece p)).or
        ((List.range' fileStartPiece
          (clampNat fromPiece fileStartPiece fileEndPiece - fileStartPiece)).find?
            (fun p => !havePiece p))) := by
    rw [findNextMissingPiece, if_neg (by simp)]
  set pivot := clampNat fromPiece fileStartPiece fileEndPiece with hpivot
  rcases hfwd : (List.range' pivot (fileEndPiece + 1 - pivot)).find? (fun p => !havePiece p)
    with _ | q1
  · have hall1 : ∀ p, pivot ≤ p → p ≤ fileEndPiece → havePiece p = true := by
      intro p h1 h2
      exact (find_missing_range'_none havePiece pivot (fileEndPiece + 1 - pivot)).mp hfwd p h1
        (by omega)
    rw [hfwd, Option.none_or] at hval
    rcases hback : (List.range' fileStartPiece (pivot - fileStartPiece)).find?
        (fun p => !havePiece p) with _ | q2
    · rw [hback] at hval
      have hall2 : ∀ p, fileStartPiece ≤ p → p < pivot → havePiece p = true := by
        intro p h1 h2
        exact (find_missing_range'_none havePiece fileStartPiece (pivot - fileStartPiece)).mp
          hback p h1 (by omega)
      constructor
      · rw [hval]
        simp only [true_iff]
        intro p h1 h2
        by_cases hc : pivot ≤ p
        · exact hall1 p hc h2
        · exact hall2 p h1 (by omega)
      · intro q hq
        rw [hval] at hq
        exact Option.noConfusion hq
    · rw [hback] at hval
      obtain ⟨h1, h2, h3, h4⟩ := find_missing_range'_some havePiece _ _ _ hback
      constructor
      · rw [hval]
        refine iff_of_false (by simp) ?_
        push_neg
        exact ⟨q2, h1, by omega, by simp [h3]⟩
      · intro q hq
        rw [hval] at hq
        obtain rfl : q2 = q := by injection hq
        refine ⟨h1, by omega, h3, ?_⟩
        intro p hpa hpb hrk
        rw [hrank p, hrank q2] at hrk
        by_cases hc : pivot ≤ p
        · exact hall1 p hc hpb
        · rw [if_neg hc, if_neg (by omega)] at hrk
          exact h4 p hpa (by omega)
  · rw [hfwd, Option.or_some] at hval
    obtain ⟨h1, h2, h3, h4⟩ := find_missing_range'_some havePiece _ _ _ hfwd
    constructor
    · rw [hval]
      refine iff_of_false (by simp) ?_
      push_neg
      exact ⟨q1, by omega, by omega, by simp [h3]⟩
    · intro q hq
      rw [hval] at hq
      obtain rfl : q1 = q := by injection hq
      refine ⟨by omega, by omega, h3, ?_⟩
      intro p hpa hpb hrk
      rw [hrank p, hrank q1] at hrk
      by_cases hc : pivot ≤ p
      · rw [if_pos hc, if_pos (by omega)] at hrk
        exact h4 p hc (by omega)
      · rw [if_neg hc, if_pos (by omega)] at hrk
        omega

/-- Claim C8 witness: the claim's concrete instance.  With
`fileStartPiece = 0`, `fileEndPiece = 9`, cursor 8, pieces 0, 1, 8, 9
present and piece 2 the first missing piece in wrap order, the scan
returns 2, and the returned piece is indeed missing. -/
theorem c8_find_next_missing_piece_witness :
    findNextMissingPiece true (fun p => decide (p ≤ 1 ∨ 8 ≤ p)) 0 9 8 = some 2 ∧
    (fun p => decide (p ≤ 1 ∨ 8 ≤ p)) 2 = false :=
  ⟨by decide,
   ((c8_find_next_missing_piece (fun p => decide (p ≤ 1 ∨ 8 ≤ p)) 0 9 8 (by decide)).2 2
      (by decide)).2.2.1⟩

/-- Claim C9: a `Range: bytes={start}-{end}` request with
`0 ≤ start < fileSize ≤ end` has its end clamped to `fileSize − 1`, so
the server responds 206 covering bytes `start` through `fileSize − 1`
rather than rejecting the request. -/
theorem c9_end_clamped_to_eof (fileSize startReq endReq : Int) (h0 : 0 ≤ startReq)
    (h1 : startReq < fileSize) (h2 : fileSize ≤ endReq) :
    serveTorrentRequest HttpMethod.GET (some fileSize)
      (RangeForm.closed (some startReq) (some endReq)) =
      { status := 206, acceptRanges := true, contentLength := some (fileSize - startReq),
        keepAlive := true,
        contentRange := some (ContentRangeValue.satisfiable startReq (fileSize - 1) fileSize),
        body := ResponseBody.torrentStream startReq (fileSize - startReq) } := by
  have hparse : parseRangeHeader (RangeForm.closed (some startReq) (some endReq)) fileSize
      = some (startReq, fileSize - 1) := by
    rw [parseRangeHeader, if_neg (by omega)]
    show rangeCheckClamp startReq endReq fileSize = _
    rw [rangeCheckClamp, if_neg (by omega), if_neg (by omega), min_eq_right (by omega)]
  simp only [serveTorrentRequest, hparse, Option.map_some', Option.getD_some, Option.isSome_some,
    ne_eq, not_true_eq_false, false_and, if_false, ite_true, if_true]
  rw [if_neg (by omega)]
  have : fileSize - 1 - startReq + 1 = fileSize - startReq := by omega
  simp [this]

/-- Claim C9 witness: `Range: bytes=3-50` on a 10-byte stream yields
206 with `Content-Range: bytes 3-9/10` and a 7-byte body. -/
theorem c9_end_clamped_to_eof_witness :
    serveTorrentRequest HttpMethod.GET (some 10)
      (RangeForm.closed (some 3) (some 50)) =
      { status := 206, acceptRanges := true, contentLength := some 7, keepAlive := true,
        contentRange := some (ContentRangeValue.satisfiable 3 9 10),
        body := ResponseBody.torrentStream 3 7 } := by
  rw [c9_end_clamped_to_eof 10 3 50 (by decide) (by decide) (by decide)]
  decide

/-- Claim C10: `stopStream(streamId)` resolves with `true` for every
`streamId`, including ids that were never registered or already
stopped; when no registered stream matches the id the registry and the
rest of the module state are left unchanged. -/
theorem c10_stop_stream_always_true (st : RegState) (id : String) :
    (stopStream st id).1 = true ∧
    ((∀ s ∈ st.streams, s.streamId ≠ id) → (stopStream st id).2 = st) := by
  refine ⟨rfl, ?_⟩
  intro h
  show applyPrim st (PrimOp.removeId id) = st
  have h1 : st.streams.filter (fun s => s.streamId ≠ id) = st.streams :=
    List.filter_eq_self.mpr (fun a ha => by simpa using h a ha)
  have h2 : st.streams.filter (fun s => s.streamId = id) = [] := by
    rw [List.filter_eq_nil_iff]
    intro a ha
    simp [h a ha]
  show RegState.mk _ _ = st
  rw [h1, h2]
  rfl

/-- Claim C10 witness: stopping the unknown id `"b"` on a registry
holding only stream `"a"` returns `true` and changes nothing. -/
theorem c10_stop_stream_always_true_witness :
    (stopStream ⟨[⟨"a", "dir"⟩], []⟩ "b").1 = true ∧
    (stopStream ⟨[⟨"a", "dir"⟩], []⟩ "b").2 = ⟨[⟨"a", "dir"⟩], []⟩ :=
  ⟨(c10_stop_stream_always_true ⟨[⟨"a", "dir"⟩], []⟩ "b").1,
    (c10_stop_stream_always_true ⟨[⟨"a", "dir"⟩], []⟩ "b").2 (by decide)⟩

end NuvioTorrent
